import Mathlib

/-!
A shallow embedding of `src/app.py`, a Streamlit dashboard over the OWID
CO₂ dataset.  The pandas data frame is modelled as a `List` of records;
floating-point columns are modelled as rationals (`ℚ`), which keeps the
arithmetic of the pipelines exact.  Pandas primitives are embedded with
their documented default semantics:

* `df.fillna(0)` replaces every missing cell with the number `0`,
  in non-numeric (object) columns as well as numeric ones;
* `df.groupby(keys)` (default `sort=True`) enumerates the distinct key
  tuples in ascending (lexicographic) order, each group aggregated over
  the matching rows;
* `df.sort_values(col)` is modelled as a stable sort on that column.
  Pandas' default `kind='quicksort'` is documented as not stable, so the
  model's tie order is only a program guarantee where the sorted frame is
  small enough for numpy's insertion-sort regime (the bar pipeline, at most
  7 rows); the time-series theorem therefore asserts no tie order.
-/

namespace CO2Dashboard

/-- One cell of a raw pandas column: missing (`NaN`), a string, or a number. -/
inductive Cell : Type
  | null : Cell
  | str : String → Cell
  | num : ℚ → Cell
deriving DecidableEq

/-- `df.fillna(0)` on a single object-column cell: missing becomes the number 0. -/
def fillCell : Cell → Cell
  | .null => .num 0
  | c => c

/-- A raw CSV row as parsed by `pd.read_csv`, before `fillna`:
object columns hold `Cell`s, numeric columns hold optional numbers
(`none` = missing). -/
structure RawRecord : Type where
  country : Cell
  iso_code : Cell
  year : Option Int
  population : Option ℚ
  gdp : Option ℚ
  co2 : Option ℚ
  co2_per_capita : Option ℚ
  coal_co2 : Option ℚ
  oil_co2 : Option ℚ
  gas_co2 : Option ℚ
deriving DecidableEq

/-- A row of the data frame returned by `load_data`: every missing value
zero-filled, plus the derived `gdp_per_capita` column. -/
structure LoadedRecord : Type where
  country : Cell
  iso_code : Cell
  year : Int
  population : ℚ
  gdp : ℚ
  co2 : ℚ
  co2_per_capita : ℚ
  coal_co2 : ℚ
  oil_co2 : ℚ
  gas_co2 : ℚ
  gdp_per_capita : ℚ
deriving DecidableEq

/-- Lines 18-19 of `app.py` applied to one row:
`df = df.fillna(0)` and
`df['gdp_per_capita'] = np.where(df['population'] != 0, df['gdp'] / df['population'], 0)`. -/
def loadRow (rr : RawRecord) : LoadedRecord :=
  let pop := rr.population.getD 0
  let gdp := rr.gdp.getD 0
  { country := fillCell rr.country
    iso_code := fillCell rr.iso_code
    year := rr.year.getD 0
    population := pop
    gdp := gdp
    co2 := rr.co2.getD 0
    co2_per_capita := rr.co2_per_capita.getD 0
    coal_co2 := rr.coal_co2.getD 0
    oil_co2 := rr.oil_co2.getD 0
    gas_co2 := rr.gas_co2.getD 0
    gdp_per_capita := if pop ≠ 0 then gdp / pop else 0 }

/-- The row transformation of `load_data` over the whole table. -/
def loadRows (raw : List RawRecord) : List LoadedRecord :=
  raw.map loadRow

/-- An `EmissionRecord`: the typed view of one row of the loaded data frame,
as consumed by the four aggregation pipelines. -/
structure Record : Type where
  country : String
  iso_code : String
  year : Int
  population : ℚ
  gdp : ℚ
  co2 : ℚ
  co2_per_capita : ℚ
  coal_co2 : ℚ
  oil_co2 : ℚ
  gas_co2 : ℚ
  gdp_per_capita : ℚ
deriving DecidableEq

/-- Line 38 of `app.py`: the continent pseudo-country names, `World` included. -/
def continents : List String :=
  ["World", "Asia", "Oceania", "Europe", "Africa", "North America",
   "South America", "Antarctica"]

/-- Line 39 of `app.py`: the continent names without `World`. -/
def continents_excl_world : List String :=
  ["Asia", "Oceania", "Europe", "Africa", "North America",
   "South America", "Antarctica"]

/-- Arithmetic mean of a list of rationals (pandas `mean`); only applied to
nonempty groups. -/
def mean (l : List ℚ) : ℚ :=
  l.sum / l.length

/-! ### A stable insertion sort

`sort_values` and the key ordering of `groupby` are modelled with a stable
structural insertion sort, so that every pipeline is kernel-executable. -/

/-- Insert `a` into `acc` behind every element `b` with `le b a`; with a total
comparison this places `a` after all existing elements it ties with. -/
def insertS {α : Type} (le : α → α → Bool) (a : α) : List α → List α
  | [] => [a]
  | b :: t => if le b a then b :: insertS le a t else a :: b :: t

/-- Stable insertion sort: fold the input from the left, inserting each
element after its ties. -/
def sortS {α : Type} (le : α → α → Bool) (l : List α) : List α :=
  l.foldl (fun acc a => insertS le a acc) []

/-- Bool-valued lexicographic `≤` on pairs, the order `groupby` uses for a
two-column key. -/
def lexLEb {α β : Type} [LinearOrder α] [LinearOrder β] (a b : α × β) : Bool :=
  decide (a.1 < b.1) || (decide (a.1 = b.1) && decide (a.2 ≤ b.2))

/-! ### The four aggregation pipelines -/

/-- Lines 63-68 of `app.py` (`CO2_pipeline`), as a function of the data,
the selected year and the selected measure column:
filter `year <= year ∧ country ∈ continents`, group by `(country, year)`
with the mean of the measure, then `sort_values('year')`.
Output rows are `(country, year, value)`.  The final `sortS` idealizes
`sort_values` as stable; pandas' default quicksort is not guaranteed
stable, so no theorem about this pipeline relies on its tie order. -/
def CO2_pipeline (records : List Record) (year : Int) (measure : Record → ℚ) :
    List (String × Int × ℚ) :=
  let f := records.filter (fun r => decide (r.year ≤ year ∧ r.country ∈ continents))
  let keys := sortS (fun a b => lexLEb a b) ((f.map (fun r => (r.country, r.year))).dedup)
  let grouped := keys.map (fun k =>
    (k.1, k.2, mean ((f.filter (fun r => decide (r.country = k.1 ∧ r.year = k.2))).map measure)))
  sortS (fun a b => decide (a.2.1 ≤ b.2.1)) grouped

/-- Lines 85-89 of `app.py` (`CO2_vs_gdp_pipeline`):
filter `year == year ∧ country ∉ continents`, group by
`(country, gdp_per_capita)` with the mean of `co2`.
Output rows are `(country, gdp_per_capita, value)`. -/
def CO2_vs_gdp_pipeline (records : List Record) (year : Int) :
    List (String × ℚ × ℚ) :=
  let f := records.filter (fun r => decide (r.year = year ∧ r.country ∉ continents))
  let keys := sortS (fun a b => lexLEb a b)
    ((f.map (fun r => (r.country, r.gdp_per_capita))).dedup)
  keys.map (fun k =>
    (k.1, k.2,
      mean ((f.filter (fun r => decide (r.country = k.1 ∧ r.gdp_per_capita = k.2))).map
        (fun r => r.co2))))

/-- Lines 129-134 of `app.py` (`CO2_source_pipeline`):
filter `year == year ∧ country ∈ continents_excl_world`, group by `country`
with the sum of the selected source column, then
`sort_values(col, ascending=False)`.  Output rows are `(country, value)`. -/
def CO2_source_pipeline (records : List Record) (year : Int) (src : Record → ℚ) :
    List (String × ℚ) :=
  let f := records.filter (fun r => decide (r.year = year ∧ r.country ∈ continents_excl_world))
  let keys := sortS (fun a b => decide (a ≤ b)) ((f.map (fun r => r.country)).dedup)
  let grouped := keys.map (fun c =>
    (c, ((f.filter (fun r => decide (r.country = c))).map src).sum))
  sortS (fun a b => decide (b.2 ≤ a.2)) grouped

/-! ### Geometry, centroids and the coordinate loader -/

/-- A ring of a GeoJSON geometry: a list of `(lon, lat)` vertices. -/
abbrev Ring : Type := List (ℚ × ℚ)

/-- A GeoJSON geometry: `Polygon` (a list of rings) or `MultiPolygon`
(a list of sub-polygons, each a list of rings). -/
inductive Geometry : Type
  | polygon : List Ring → Geometry
  | multiPolygon : List (List Ring) → Geometry
deriving DecidableEq

/-- Lines 165-168 of `app.py`: the single ring the centroid is computed from,
`coordinates[0]` for a `Polygon` and `coordinates[0][0]` for a `MultiPolygon`. -/
def centroidRing : Geometry → Ring
  | .polygon rings => rings.headD []
  | .multiPolygon polys => (polys.headD []).headD []

/-- Lines 170-171 of `app.py`: `(lat, lon)` as the columnwise means of the
selected ring (`lon` is column 0, `lat` column 1 of the vertex array). -/
def centroid (g : Geometry) : ℚ × ℚ :=
  ((centroidRing g).map Prod.snd |> mean, (centroidRing g).map Prod.fst |> mean)

/-- One GeoJSON feature: its `properties.name` and its geometry. -/
structure Feature : Type where
  name : String
  geometry : Geometry
deriving DecidableEq

/-- A GeoJSON feature collection. -/
structure GeoJSON : Type where
  features : List Feature
deriving DecidableEq

/-- One row of the data frame built by `load_country_coords`. -/
structure CoordRow : Type where
  country : String
  latitude : ℚ
  longitude : ℚ
deriving DecidableEq

/-- Lines 173-177 of `app.py`: the coordinate row of one feature. -/
def coordRowOf (f : Feature) : CoordRow :=
  { country := f.name
    latitude := (centroid f.geometry).1
    longitude := (centroid f.geometry).2 }

/-! ### The two loaders and their failure behaviour -/

/-- Outcome of one `requests.get` followed by parsing the body:
either the request itself raised (network error), or a response with an
HTTP status code and the parse result of the body (`none` = the body
does not parse into the expected shape). -/
inductive Fetch (α : Type) : Type
  | netError : Fetch α
  | response : Nat → Option α → Fetch α
deriving DecidableEq

/-- The single failure kind of the loaders. -/
inductive LoadError : Type
  | dataUnavailable : LoadError
deriving DecidableEq

/-- Lines 13-20 of `app.py` (`load_data`): a raised network error propagates;
`r.raise_for_status()` raises on a 4xx/5xx status; `pd.read_csv` raises on an
unparsable body; otherwise the table is zero-filled and extended with
`gdp_per_capita`. -/
def load_data (fetch : Fetch (List RawRecord)) : Except LoadError (List LoadedRecord) :=
  match fetch with
  | .netError => .error .dataUnavailable
  | .response status parsed =>
    if 400 ≤ status ∧ status < 600 then .error .dataUnavailable
    else
      match parsed with
      | none => .error .dataUnavailable
      | some raw => .ok (loadRows raw)

/-- Lines 155-179 of `app.py` (`load_country_coords`): a raised network error
propagates and an unparsable body makes `.json()` (or the subsequent key
accesses) raise, but the HTTP status code is never inspected — the source has
no `raise_for_status()` here. -/
def load_country_coords (fetch : Fetch GeoJSON) : Except LoadError (List CoordRow) :=
  match fetch with
  | .netError => .error .dataUnavailable
  | .response _ parsed =>
    match parsed with
    | none => .error .dataUnavailable
    | some gj => .ok (gj.features.map coordRowOf)

/-! ### The left merge and the choropleth input -/

/-- A row of the merged frame `df.merge(coords, on="country", how="left")`:
the original columns plus optional coordinates (`none` = `NaN` from an
unmatched left join). -/
structure MergedRecord : Type where
  row : Record
  latitude : Option ℚ
  longitude : Option ℚ
deriving DecidableEq

/-- Line 183 of `app.py`: pandas left merge on `country`.  Every left row is
kept; it is repeated once per matching coordinate row, and gets absent
coordinates when nothing matches. -/
def mergeLeft (records : List Record) (coords : List CoordRow) : List MergedRecord :=
  records.flatMap (fun r =>
    match coords.filter (fun c => decide (c.country = r.country)) with
    | [] => [{ row := r, latitude := none, longitude := none }]
    | ms => ms.map (fun m => { row := r, latitude := some m.latitude, longitude := some m.longitude }))

/-- Line 187 of `app.py`: `df_3d = df[df["year"] == year]`, the choropleth
input for the selected year. -/
def df_3d (merged : List MergedRecord) (year : Int) : List MergedRecord :=
  merged.filter (fun m => decide (m.row.year = year))

/-! ### Filter state and one full rendering pass -/

/-- The CO₂ measure radio control (lines 47-61 of `app.py`). -/
inductive Measure : Type
  | total : Measure
  | perCapita : Measure
deriving DecidableEq

/-- The CO₂ source radio control (lines 112-127 of `app.py`). -/
inductive Source : Type
  | coal : Source
  | oil : Source
  | gas : Source
deriving DecidableEq

/-- The data-frame column selected by the measure control. -/
def measureField : Measure → Record → ℚ
  | .total => fun r => r.co2
  | .perCapita => fun r => r.co2_per_capita

/-- The data-frame column selected by the source control. -/
def sourceField : Source → Record → ℚ
  | .coal => fun r => r.coal_co2
  | .oil => fun r => r.oil_co2
  | .gas => fun r => r.gas_co2

/-- The immutable per-render snapshot of the sidebar controls. -/
structure FilterState : Type where
  year : Int
  co2_measure : Measure
  co2_source : Source
deriving DecidableEq

/-- One full rendering pass: the four result tables computed from the loaded
data, the coordinate table and one `FilterState`. -/
def render (records : List Record) (coords : List CoordRow) (fs : FilterState) :
    List (String × Int × ℚ) × List (String × ℚ × ℚ) × List (String × ℚ) ×
      List MergedRecord :=
  (CO2_pipeline records fs.year (measureField fs.co2_measure),
   CO2_vs_gdp_pipeline records fs.year,
   CO2_source_pipeline records fs.year (sourceField fs.co2_source),
   df_3d (mergeLeft records coords) fs.year)

/-- The relation a stable sort guarantees pairwise on its output when the
input was pairwise `R`: sorted by `le`, and ties (where `le` holds both
ways) still ordered by `R`. -/
def tieOrd {α : Type} (le : α → α → Bool) (R : α → α → Prop) (a b : α) : Prop :=
  le a b = true ∧ (le b a = true → R a b)

/-! ### Concrete inputs used by witnesses and counterexamples -/

/-- A record with the given country and year and all numeric columns zero. -/
def baseRec (c : String) (y : Int) : Record :=
  { country := c, iso_code := "", year := y, population := 0, gdp := 0,
    co2 := 0, co2_per_capita := 0, coal_co2 := 0, oil_co2 := 0, gas_co2 := 0,
    gdp_per_capita := 0 }

/-- Two continents in 2010 with equal coal totals, `Europe` first. -/
def exTieSource : List Record :=
  [{ baseRec "Europe" 2010 with coal_co2 := 5 },
   { baseRec "Asia" 2010 with coal_co2 := 5 }]

/-- Two continents in 2000 with the same year, `World` first. -/
def exTieSeries : List Record :=
  [{ baseRec "World" 2000 with co2 := 1 },
   { baseRec "Asia" 2000 with co2 := 2 }]

/-- A fully populated raw CSV row. -/
def exRaw : RawRecord :=
  { country := .str "France", iso_code := .str "FRA", year := some 2010,
    population := some 4, gdp := some 8, co2 := some 1, co2_per_capita := some 1,
    coal_co2 := some 1, oil_co2 := some 1, gas_co2 := some 1 }

/-- A raw CSV row with a missing ISO code, GDP and CO₂ columns. -/
def exRawMissing : RawRecord :=
  { country := .str "France", iso_code := .null, year := some 2010,
    population := some 2, gdp := none, co2 := none, co2_per_capita := none,
    coal_co2 := none, oil_co2 := none, gas_co2 := none }

/-- A feature collection with a single rectangular polygon. -/
def gjEx : GeoJSON :=
  { features := [{ name := "Testland",
                   geometry := .polygon [[(0, 0), (4, 0), (4, 2), (0, 2)]] }] }

/-- A coordinate row whose country matches nothing in the witness data. -/
def exCoord : CoordRow :=
  { country := "France", latitude := 1, longitude := 2 }

/-- A one-country table for the scatter pipeline. -/
def exScatter : List Record :=
  [{ baseRec "France" 2010 with gdp_per_capita := 3, co2 := 7 }]

/-! ### Lemmas about the stable sort -/

theorem mem_insertS {α : Type} {le : α → α → Bool} {a x : α} :
    ∀ {l : List α}, x ∈ insertS le a l ↔ x = a ∨ x ∈ l := by
  intro l
  induction l with
  | nil => simp [insertS]
  | cons b t ih =>
    simp only [insertS]
    cases hba : le b a
    · simp only [Bool.false_eq_true, if_false, List.mem_cons]
    · simp only [if_true, List.mem_cons, ih]
      tauto

theorem mem_foldl_insertS {α : Type} {le : α → α → Bool} {x : α} :
    ∀ (l acc : List α),
      (x ∈ l.foldl (fun acc a => insertS le a acc) acc ↔ x ∈ acc ∨ x ∈ l) := by
  intro l
  induction l with
  | nil => intro acc; simp
  | cons a t ih =>
    intro acc
    simp only [List.foldl_cons]
    rw [ih]
    rw [mem_insertS]
    simp only [List.mem_cons]
    tauto

theorem mem_sortS {α : Type} {le : α → α → Bool} {x : α} {l : List α} :
    x ∈ sortS le l ↔ x ∈ l := by
  unfold sortS
  rw [mem_foldl_insertS]
  simp

theorem pairwise_insertS {α : Type} {le : α → α → Bool} {R : α → α → Prop}
    (htrans : ∀ a b c, le a b = true → le b c = true → le a c = true)
    (htotal : ∀ a b, le a b = true ∨ le b a = true)
    {a : α} :
    ∀ {acc : List α}, acc.Pairwise (tieOrd le R) → (∀ b ∈ acc, R b a) →
      (insertS le a acc).Pairwise (tieOrd le R) := by
  intro acc
  induction acc with
  | nil =>
    intro _ _
    simp [insertS]
  | cons b t ih =>
    intro hacc hprev
    rw [List.pairwise_cons] at hacc
    obtain ⟨hb, ht⟩ := hacc
    simp only [insertS]
    cases hba : le b a
    · simp only [Bool.false_eq_true, if_false]
      have hab : le a b = true := by
        rcases htotal a b with h' | h'
        · exact h'
        · rw [h'] at hba
          exact absurd hba (by simp)
      rw [List.pairwise_cons]
      constructor
      · intro x hx
        rcases List.mem_cons.mp hx with rfl | hx'
        · refine ⟨hab, fun hba' => ?_⟩
          rw [hba'] at hba
          exact absurd hba (by simp)
        · have hbx : le b x = true := (hb x hx').1
          refine ⟨htrans a b x hab hbx, fun hxa => ?_⟩
          have hcontra : le b a = true := htrans b x a hbx hxa
          rw [hcontra] at hba
          exact absurd hba (by simp)
      · rw [List.pairwise_cons]
        exact ⟨hb, ht⟩
    · simp only [if_true]
      rw [List.pairwise_cons]
      refine ⟨?_, ih ht (fun c hc => hprev c (List.mem_cons_of_mem b hc))⟩
      intro x hx
      rcases mem_insertS.mp hx with rfl | hx'
      · exact ⟨hba, fun _ => hprev b (List.mem_cons_self b t)⟩
      · exact hb x hx'

theorem pairwise_foldl_insertS {α : Type} {le : α → α → Bool} {R : α → α → Prop}
    (htrans : ∀ a b c, le a b = true → le b c = true → le a c = true)
    (htotal : ∀ a b, le a b = true ∨ le b a = true) :
    ∀ (l acc : List α), acc.Pairwise (tieOrd le R) →
      (∀ b ∈ acc, ∀ a ∈ l, R b a) → l.Pairwise R →
      (l.foldl (fun acc a => insertS le a acc) acc).Pairwise (tieOrd le R) := by
  intro l
  induction l with
  | nil =>
    intro acc hacc _ _
    simpa using hacc
  | cons a t ih =>
    intro acc hacc hcross hl
    rw [List.pairwise_cons] at hl
    obtain ⟨ha, ht⟩ := hl
    simp only [List.foldl_cons]
    apply ih
    · exact pairwise_insertS htrans htotal hacc
        (fun b hb => hcross b hb a (List.mem_cons_self a t))
    · intro b hb x hx
      rcases mem_insertS.mp hb with rfl | hb'
      · exact ha x hx
      · exact hcross b hb' x (List.mem_cons_of_mem a hx)
    · exact ht

/-- Stability of `sortS`: if the input is pairwise `R`, the output is sorted
by `le` and ties are still pairwise `R`. -/
theorem pairwise_sortS {α : Type} {le : α → α → Bool} {R : α → α → Prop}
    (htrans : ∀ a b c, le a b = true → le b c = true → le a c = true)
    (htotal : ∀ a b, le a b = true ∨ le b a = true)
    {l : List α} (hl : l.Pairwise R) :
    (sortS le l).Pairwise (tieOrd le R) := by
  unfold sortS
  exact pairwise_foldl_insertS htrans htotal l [] (by simp) (by simp) hl

/-! ### The comparison functions used by the pipelines are total preorders -/

theorem keyLE_trans {α β : Type} [LinearOrder β] (f : α → β) :
    ∀ a b c, decide (f a ≤ f b) = true → decide (f b ≤ f c) = true →
      decide (f a ≤ f c) = true := by
  intro a b c h1 h2
  simp only [decide_eq_true_eq] at *
  exact le_trans h1 h2

theorem keyLE_total {α β : Type} [LinearOrder β] (f : α → β) :
    ∀ a b, decide (f a ≤ f b) = true ∨ decide (f b ≤ f a) = true := by
  intro a b
  simp only [decide_eq_true_eq]
  exact le_total (f a) (f b)

theorem keyGE_trans {α β : Type} [LinearOrder β] (f : α → β) :
    ∀ a b c, decide (f b ≤ f a) = true → decide (f c ≤ f b) = true →
      decide (f c ≤ f a) = true := by
  intro a b c h1 h2
  simp only [decide_eq_true_eq] at *
  exact le_trans h2 h1

theorem keyGE_total {α β : Type} [LinearOrder β] (f : α → β) :
    ∀ a b, decide (f b ≤ f a) = true ∨ decide (f a ≤ f b) = true := by
  intro a b
  simp only [decide_eq_true_eq]
  exact le_total (f b) (f a)

theorem lexLEb_trans {α β : Type} [LinearOrder α] [LinearOrder β] :
    ∀ (a b c : α × β), lexLEb a b = true → lexLEb b c = true →
      lexLEb a c = true := by
  intro a b c h1 h2
  simp only [lexLEb, Bool.or_eq_true, Bool.and_eq_true, decide_eq_true_eq] at *
  rcases h1 with h1 | ⟨h1e, h1le⟩
  · rcases h2 with h2 | ⟨h2e, _⟩
    · exact Or.inl (lt_trans h1 h2)
    · exact Or.inl (h2e ▸ h1)
  · rcases h2 with h2 | ⟨h2e, h2le⟩
    · exact Or.inl (h1e ▸ h2)
    · exact Or.inr ⟨h1e.trans h2e, le_trans h1le h2le⟩

theorem lexLEb_total {α β : Type} [LinearOrder α] [LinearOrder β] :
    ∀ (a b : α × β), lexLEb a b = true ∨ lexLEb b a = true := by
  intro a b
  simp only [lexLEb, Bool.or_eq_true, Bool.and_eq_true, decide_eq_true_eq]
  rcases lt_trichotomy a.1 b.1 with h | h | h
  · exact Or.inl (Or.inl h)
  · rcases le_total a.2 b.2 with hle | hle
    · exact Or.inl (Or.inr ⟨h, hle⟩)
    · exact Or.inr (Or.inr ⟨h.symm, hle⟩)
  · exact Or.inr (Or.inl h)

/-- A `tieOrd`-pair for the `≤`-comparison with `Ne` ties is a strict
inequality. -/
theorem tieOrd_le_ne_lt {α : Type} [LinearOrder α] {a b : α}
    (h : tieOrd (fun a b => decide (a ≤ b)) Ne a b) : a < b := by
  obtain ⟨h1, h2⟩ := h
  simp only [decide_eq_true_eq] at h1
  rcases eq_or_lt_of_le h1 with rfl | hlt
  · exact absurd rfl (h2 (by simp))
  · exact hlt

/-- A `tieOrd`-pair for the lexicographic comparison with `Ne` ties is a
strict lexicographic inequality. -/
theorem tieOrd_lex_ne_lt {α β : Type} [LinearOrder α] [LinearOrder β]
    {a b : α × β} (h : tieOrd (fun a b => lexLEb a b) Ne a b) :
    a.1 < b.1 ∨ (a.1 = b.1 ∧ a.2 < b.2) := by
  obtain ⟨h1, h2⟩ := h
  simp only [lexLEb, Bool.or_eq_true, Bool.and_eq_true, decide_eq_true_eq] at h1
  rcases h1 with h1 | ⟨h1e, h1le⟩
  · exact Or.inl h1
  · rcases eq_or_lt_of_le h1le with h1eq | hlt
    · exfalso
      have hab : a = b := Prod.ext h1e h1eq
      subst hab
      exact absurd rfl (h2 (by simp [lexLEb]))
    · exact Or.inr ⟨h1e, hlt⟩

/-! ### Small evaluation helpers -/

theorem decide_strLE_eq (a b : String) : decide (a ≤ b) = decide (a.data ≤ b.data) :=
  decide_eq_decide.mpr String.le_iff_toList_le

theorem lexLEb_str_eval {β : Type} [LinearOrder β] (a b : String × β) :
    lexLEb a b =
      (decide (a.1.data < b.1.data) || (decide (a.1.data = b.1.data) && decide (a.2 ≤ b.2))) := by
  unfold lexLEb
  congr 1
  · exact decide_eq_decide.mpr String.lt_iff_toList_lt
  · congr 1
    exact decide_eq_decide.mpr ⟨fun h => congrArg String.data h, fun h => String.ext h⟩

theorem sortS_pair_swap {α : Type} (le : α → α → Bool) (a b : α) (h : le a b = false) :
    sortS le [a, b] = [b, a] := by
  simp [sortS, insertS, h]

theorem sortS_pair_keep {α : Type} (le : α → α → Bool) (a b : α) (h : le a b = true) :
    sortS le [a, b] = [a, b] := by
  simp [sortS, insertS, h]

/-! ### The claims -/

/-- C1: for every record in the loaded dataset, the derived `gdp_per_capita`
field equals `gdp / population` when `population` is not 0, and equals 0 when
`population` is 0; no division-by-zero value propagates into the field. -/
theorem gdp_per_capita_correct (raw : List RawRecord) (r : LoadedRecord)
    (hr : r ∈ loadRows raw) :
    r.gdp_per_capita = if r.population ≠ 0 then r.gdp / r.population else 0 := by
  rcases List.mem_map.mp hr with ⟨rr, _, rfl⟩
  rfl

/-- C1 witness: the theorem applied to a concrete one-row table. -/
theorem gdp_per_capita_correct_witness :
    (loadRow exRaw).gdp_per_capita =
      if (loadRow exRaw).population ≠ 0 then
        (loadRow exRaw).gdp / (loadRow exRaw).population
      else 0 :=
  gdp_per_capita_correct [exRaw] (loadRow exRaw) (by simp [loadRows])

/-- C5 counterexample: `load_country_coords` does not inspect the HTTP status
(the source has no `raise_for_status()` there), so a fetch with the
non-success status 404 whose body still parses succeeds instead of failing
with `DataUnavailable`. -/
theorem load_country_coords_ignores_status :
    load_country_coords (.response 404 (some gjEx)) =
      .ok [{ country := "Testland", latitude := 1, longitude := 2 }]
    ∧ load_country_coords (.response 404 (some gjEx)) ≠ .error .dataUnavailable := by
  have h1 : load_country_coords (.response 404 (some gjEx)) =
      .ok (gjEx.features.map coordRowOf) := rfl
  rw [h1]
  constructor
  · have h2 : gjEx.features.map coordRowOf =
        [{ country := "Testland", latitude := 1, longitude := 2 }] := by
      simp only [gjEx, coordRowOf, centroid, centroidRing, mean, List.map,
        List.headD, CoordRow.mk.injEq, List.cons.injEq, List.sum_cons,
        List.sum_nil, List.length, Prod.snd, Prod.fst]
      norm_num
    rw [h2]
  · simp

/-- C5 (amended): `load_data` fails with `DataUnavailable` on a network
error, on a non-success (4xx/5xx) HTTP status, and on an unparsable payload;
`load_country_coords` fails on a network error and on an unparsable payload,
but never checks the HTTP status.  Every failure returns an error and no
partial result. -/
theorem loaders_fail_with_data_unavailable :
    (load_data .netError = .error .dataUnavailable)
    ∧ (∀ (s : Nat) (p : Option (List RawRecord)), 400 ≤ s → s < 600 →
        load_data (.response s p) = .error .dataUnavailable)
    ∧ (∀ s : Nat, load_data (.response s none) = .error .dataUnavailable)
    ∧ (load_country_coords .netError = .error .dataUnavailable)
    ∧ (∀ s : Nat, load_country_coords (.response s none) = .error .dataUnavailable) := by
  refine ⟨rfl, ?_, ?_, rfl, fun s => rfl⟩
  · intro s p h1 h2
    simp [load_data, h1, h2]
  · intro s
    simp only [load_data]
    split
    · rfl
    · rfl

/-- C5 witness: the status branch of the theorem applied to a concrete
server-error response. -/
theorem loaders_fail_with_data_unavailable_witness :
    load_data (.response 500 (some [exRaw])) = .error .dataUnavailable :=
  loaders_fail_with_data_unavailable.2.1 500 (some [exRaw]) (by decide) (by decide)

/-- C6: one rendering pass is a pure function of the dataset, the coordinate
table and the filter state: two runs with identical `FilterState` on the same
data produce identical result tables for all four pipelines. -/
theorem render_deterministic (records : List Record) (coords : List CoordRow)
    (fs₁ fs₂ : FilterState) (h : fs₁ = fs₂) :
    render records coords fs₁ = render records coords fs₂ := by
  rw [h]

/-- C6 witness: the theorem applied to a concrete state. -/
theorem render_deterministic_witness :
    render [baseRec "Asia" 2010] [exCoord] ⟨2010, .total, .coal⟩ =
      render [baseRec "Asia" 2010] [exCoord] ⟨2010, .total, .coal⟩ :=
  render_deterministic [baseRec "Asia" 2010] [exCoord] _ _ rfl

/-- C7: the centroid is the arithmetic mean of the longitudes and of the
latitudes over a single ring only — the first ring of a `Polygon`, the first
ring of the first sub-polygon of a `MultiPolygon` — and the other rings and
sub-polygons never influence the result. -/
theorem centroid_first_ring_only (r : Ring) (rest rest' : List Ring)
    (polys polys' : List (List Ring)) :
    centroid (.polygon (r :: rest)) = (mean (r.map Prod.snd), mean (r.map Prod.fst))
    ∧ centroid (.polygon (r :: rest)) = centroid (.polygon (r :: rest'))
    ∧ centroid (.multiPolygon ((r :: rest) :: polys)) =
        (mean (r.map Prod.snd), mean (r.map Prod.fst))
    ∧ centroid (.multiPolygon ((r :: rest) :: polys)) =
        centroid (.multiPolygon ((r :: rest') :: polys')) :=
  ⟨rfl, rfl, rfl, rfl⟩

/-- C8: for a selected year strictly below every year in the dataset, the
time-series pipeline returns the empty table (and, being a total function,
does not fail). -/
theorem timeseries_empty_below_min (records : List Record) (year : Int)
    (measure : Record → ℚ) (h : ∀ r ∈ records, year < r.year) :
    CO2_pipeline records year measure = [] := by
  have hf : records.filter
      (fun r => decide (r.year ≤ year) && decide (r.country ∈ continents)) = [] := by
    rw [List.filter_eq_nil_iff]
    intro r hr
    simp only [Bool.and_eq_true, decide_eq_true_eq, not_and]
    intro hle
    exact absurd hle (not_le.mpr (h r hr))
  simp [CO2_pipeline, hf, sortS]

/-- C8 witness: a dataset whose minimum year is 2000, queried at 1990. -/
theorem timeseries_empty_below_min_witness :
    CO2_pipeline [baseRec "Asia" 2000] 1990 (fun r => r.co2) = [] :=
  timeseries_empty_below_min [baseRec "Asia" 2000] 1990 (fun r => r.co2)
    (by decide)

/-- C9: a country of the emissions table with no matching coordinate row is
kept by the left merge as a single row with all original fields unchanged and
absent coordinates (no error is raised), and the choropleth input for a year
is exactly the merged rows with that year. -/
theorem merge_mismatch_kept (records : List Record) (coords : List CoordRow)
    (year : Int) (r : Record) (hr : r ∈ records)
    (hnomatch : ∀ c ∈ coords, c.country ≠ r.country) :
    ({ row := r, latitude := none, longitude := none } : MergedRecord) ∈
        mergeLeft records coords
    ∧ (∀ m : MergedRecord, m ∈ df_3d (mergeLeft records coords) year ↔
        m ∈ mergeLeft records coords ∧ m.row.year = year) := by
  constructor
  · unfold mergeLeft
    rw [List.mem_flatMap]
    refine ⟨r, hr, ?_⟩
    have hfil : coords.filter (fun c => decide (c.country = r.country)) = [] := by
      rw [List.filter_eq_nil_iff]
      intro c hc
      simpa using hnomatch c hc
    rw [hfil]
    simp
  · intro m
    simp [df_3d, List.mem_filter]

/-- C9 witness: the theorem applied to a one-row table and a coordinate
table that does not mention its country. -/
theorem merge_mismatch_kept_witness :
    ({ row := baseRec "Asia" 2010, latitude := none, longitude := none } :
        MergedRecord) ∈ mergeLeft [baseRec "Asia" 2010] [exCoord] :=
  (merge_mismatch_kept [baseRec "Asia" 2010] [exCoord] 2010 (baseRec "Asia" 2010)
    (by simp) (by decide)).1

/-- C10: `load_data` zero-fills every column, non-numeric ones included: no
field of a loaded record is missing, a missing ISO code becomes the number 0,
and a row whose `gdp` or `population` was missing gets `gdp_per_capita = 0`,
indistinguishable from the row with a true zero in that column. -/
theorem load_data_zero_fills (rr : RawRecord) :
    ((loadRow rr).country ≠ Cell.null ∧ (loadRow rr).iso_code ≠ Cell.null)
    ∧ (rr.iso_code = Cell.null → (loadRow rr).iso_code = Cell.num 0)
    ∧ ((rr.gdp = none ∨ rr.population = none) → (loadRow rr).gdp_per_capita = 0)
    ∧ (rr.gdp = none → loadRow rr = loadRow { rr with gdp := some 0 })
    ∧ (rr.population = none → loadRow rr = loadRow { rr with population := some 0 }) := by
  refine ⟨⟨?_, ?_⟩, ?_, ?_, ?_, ?_⟩
  · cases h : rr.country <;> simp [loadRow, fillCell, h]
  · cases h : rr.iso_code <;> simp [loadRow, fillCell, h]
  · intro h
    simp [loadRow, fillCell, h]
  · intro h
    rcases h with h | h
    · by_cases hp : rr.population.getD 0 = 0
      · simp [loadRow, h, hp]
      · simp [loadRow, h, hp]
    · simp [loadRow, h]
  · intro h
    simp [loadRow, h]
  · intro h
    simp [loadRow, h]

/-- C10 witness: the theorem applied to a row with missing ISO code and GDP. -/
theorem load_data_zero_fills_witness :
    (loadRow exRawMissing).iso_code = Cell.num 0
    ∧ (loadRow exRawMissing).gdp_per_capita = 0 :=
  ⟨(load_data_zero_fills exRawMissing).2.1 rfl,
   (load_data_zero_fills exRawMissing).2.2.1 (Or.inl rfl)⟩

/-- C2 counterexample: with two equal coal sums, the bar pipeline returns the
tied continents in ascending name order (the `groupby` key order), not in the
original input order, which was `Europe` before `Asia`. -/
theorem sourceBars_tie_not_input_order :
    CO2_source_pipeline exTieSource 2010 (fun r => r.coal_co2) = [("Asia", 5), ("Europe", 5)]
    ∧ exTieSource.map (fun r => r.country) = ["Europe", "Asia"] := by
  refine ⟨?_, rfl⟩
  have hEA : decide (("Europe" : String) ≤ "Asia") = false := by
    rw [decide_strLE_eq]
    decide
  have step1 : CO2_source_pipeline exTieSource 2010 (fun r => r.coal_co2) =
      sortS (fun a b => decide (b.2 ≤ a.2))
        ((sortS (fun a b => decide (a ≤ b)) ["Europe", "Asia"]).map
          (fun c => (c, ((exTieSource.filter (fun r => decide (r.country = c))).map
            (fun r => r.coal_co2)).sum))) := rfl
  rw [step1, sortS_pair_swap _ _ _ hEA]
  have hA : exTieSource.filter (fun r => decide (r.country = "Asia")) =
      [{ baseRec "Asia" 2010 with coal_co2 := 5 }] := rfl
  have hE : exTieSource.filter (fun r => decide (r.country = "Europe")) =
      [{ baseRec "Europe" 2010 with coal_co2 := 5 }] := rfl
  simp only [List.map, hA, hE]
  simp only [List.map, List.sum_cons, List.sum_nil]
  rw [sortS_pair_keep]
  · norm_num
  · simp

/-- C2 (amended): the bar pipeline returns exactly one row per continent of
`continents_excl_world` having a record in the selected year, with value the
sum of the selected source column over those records; `World` never appears;
the rows are sorted non-increasing by value, and rows with equal values are
ordered by ascending country name (the `groupby` key order), not by the
original input order. -/
theorem sourceBars_grouped_sorted (records : List Record) (year : Int)
    (src : Record → ℚ) :
    (∀ c v, (c, v) ∈ CO2_source_pipeline records year src ↔
      (c ∈ continents_excl_world ∧ (∃ r ∈ records, r.year = year ∧ r.country = c) ∧
        v = ((records.filter (fun r => decide (r.year = year ∧ r.country = c))).map src).sum))
    ∧ (∀ p ∈ CO2_source_pipeline records year src, p.1 ≠ "World")
    ∧ (CO2_source_pipeline records year src).Pairwise
        (fun p q => q.2 ≤ p.2 ∧ (p.2 ≤ q.2 → p.1 < q.1)) := by
  have hfil : ∀ c, c ∈ continents_excl_world →
      (records.filter
          (fun r => decide (r.year = year ∧ r.country ∈ continents_excl_world))).filter
        (fun r => decide (r.country = c)) =
      records.filter (fun r => decide (r.year = year ∧ r.country = c)) := by
    intro c hc
    rw [List.filter_filter]
    apply List.filter_congr
    intro x _
    rw [← Bool.decide_and, decide_eq_decide]
    constructor
    · rintro ⟨h1, h2, _⟩
      exact ⟨h2, h1⟩
    · rintro ⟨h1, h2⟩
      refine ⟨h2, h1, ?_⟩
      rw [h2]
      exact hc
  have hmemiff : ∀ c v, (c, v) ∈ CO2_source_pipeline records year src ↔
      (c ∈ continents_excl_world ∧ (∃ r ∈ records, r.year = year ∧ r.country = c) ∧
        v = ((records.filter (fun r => decide (r.year = year ∧ r.country = c))).map src).sum) := by
    intro c v
    simp only [CO2_source_pipeline]
    rw [mem_sortS, List.mem_map]
    constructor
    · rintro ⟨k, hk, heq⟩
      rw [Prod.mk.injEq] at heq
      obtain ⟨rfl, rfl⟩ := heq
      rw [mem_sortS, List.mem_dedup, List.mem_map] at hk
      obtain ⟨r, hrf, rfl⟩ := hk
      rw [List.mem_filter] at hrf
      obtain ⟨hr, hpred⟩ := hrf
      rw [decide_eq_true_eq] at hpred
      obtain ⟨hyr, hmem⟩ := hpred
      refine ⟨hmem, ⟨r, hr, hyr, rfl⟩, ?_⟩
      rw [hfil r.country hmem]
    · rintro ⟨hc, ⟨r, hr, hyr, hrc⟩, rfl⟩
      refine ⟨c, ?_, ?_⟩
      · rw [mem_sortS, List.mem_dedup, List.mem_map]
        refine ⟨r, List.mem_filter.mpr ⟨hr, ?_⟩, hrc⟩
        rw [decide_eq_true_eq]
        refine ⟨hyr, ?_⟩
        rw [hrc]
        exact hc
      · rw [Prod.mk.injEq]
        refine ⟨rfl, ?_⟩
        rw [hfil c hc]
  refine ⟨hmemiff, ?_, ?_⟩
  · intro p hp
    have h := (hmemiff p.1 p.2).mp hp
    intro hW
    rw [hW] at h
    exact absurd h.1 (by decide)
  · simp only [CO2_source_pipeline]
    have hnodup : ((records.filter
        (fun r => decide (r.year = year ∧ r.country ∈ continents_excl_world))).map
          (fun r => r.country)).dedup.Pairwise (fun a b : String => a ≠ b) :=
      List.nodup_dedup _
    have hkeyslt := (pairwise_sortS (keyLE_trans (fun x : String => x))
      (keyLE_total (fun x : String => x)) hnodup).imp
      (fun h => tieOrd_le_ne_lt h)
    have hglt := List.Pairwise.map
      (fun c => (c, ((((records.filter (fun r =>
        decide (r.year = year ∧ r.country ∈ continents_excl_world)))).filter
          (fun r => decide (r.country = c))).map src).sum))
      (S := fun p q : String × ℚ => p.1 < q.1) (fun a b h => h) hkeyslt
    exact (pairwise_sortS (keyGE_trans (fun p : String × ℚ => p.2))
      (keyGE_total (fun p : String × ℚ => p.2)) hglt).imp
      (fun h => ⟨of_decide_eq_true h.1, fun hle => h.2 (decide_eq_true hle)⟩)

/-- C2 witness: the amended theorem applied to concrete data: `Asia` with
coal sum 5 is in the output, and is not `World`. -/
theorem sourceBars_grouped_sorted_witness :
    ("Asia", (5 : ℚ)) ∈ CO2_source_pipeline exTieSource 2010 (fun r => r.coal_co2)
    ∧ ("Asia" : String) ≠ "World" := by
  have h := sourceBars_grouped_sorted exTieSource 2010 (fun r => r.coal_co2)
  have hmem : ("Asia", (5 : ℚ)) ∈ CO2_source_pipeline exTieSource 2010 (fun r => r.coal_co2) := by
    refine (h.1 "Asia" 5).mpr ⟨by decide, ⟨{ baseRec "Asia" 2010 with coal_co2 := 5 }, by simp [exTieSource], rfl, rfl⟩, ?_⟩
    have hfA : exTieSource.filter (fun r => decide (r.year = 2010 ∧ r.country = "Asia")) =
        [{ baseRec "Asia" 2010 with coal_co2 := 5 }] := rfl
    rw [hfA]
    simp
  exact ⟨hmem, h.2.1 ("Asia", 5) hmem⟩

/-- C3 counterexample: with two equal-year rows, the time-series pipeline
returns them in ascending `(country, year)` key order (`Asia` before
`World`), not in the original input order, which was `World` first. -/
theorem timeSeries_tie_not_input_order :
    CO2_pipeline exTieSeries 2010 (fun r => r.co2) = [("Asia", 2000, 2), ("World", 2000, 1)]
    ∧ exTieSeries.map (fun r => r.country) = ["World", "Asia"] := by
  refine ⟨?_, rfl⟩
  have hWA : lexLEb (("World" : String), (2000 : Int)) ("Asia", 2000) = false := by
    rw [lexLEb_str_eval]
    decide
  have step1 : CO2_pipeline exTieSeries 2010 (fun r => r.co2) =
      sortS (fun a b => decide (a.2.1 ≤ b.2.1))
        ((sortS (fun a b => lexLEb a b)
            [(("World" : String), (2000 : Int)), ("Asia", 2000)]).map
          (fun k => (k.1, k.2, mean ((exTieSeries.filter
            (fun r => decide (r.country = k.1 ∧ r.year = k.2))).map (fun r => r.co2))))) := rfl
  rw [step1, sortS_pair_swap _ _ _ hWA]
  have hA : exTieSeries.filter (fun r => decide (r.country = "Asia" ∧ r.year = 2000)) =
      [{ baseRec "Asia" 2000 with co2 := 2 }] := rfl
  have hW : exTieSeries.filter (fun r => decide (r.country = "World" ∧ r.year = 2000)) =
      [{ baseRec "World" 2000 with co2 := 1 }] := rfl
  simp only [List.map, hA, hW]
  rw [sortS_pair_keep]
  · norm_num [mean]
  · decide

/-- C3 (amended): the time-series pipeline returns exactly one row per
`(country, year)` group of the records with `year ≤` the selected year and
country in `continents`, with value the mean of the measure over the group;
the output is sorted non-decreasing by year.  The relative order of rows
with equal year is left unspecified: `sort_values('year')` uses pandas'
default quicksort, which is not guaranteed stable, so no tie order is a
program guarantee (and the claimed input order fails, see the
counterexample). -/
theorem timeSeries_grouped_sorted (records : List Record) (year : Int)
    (measure : Record → ℚ) :
    (∀ c y v, (c, y, v) ∈ CO2_pipeline records year measure ↔
      (y ≤ year ∧ c ∈ continents ∧ (∃ r ∈ records, r.country = c ∧ r.year = y) ∧
        v = mean ((records.filter
          (fun r => decide (r.country = c ∧ r.year = y))).map measure)))
    ∧ (CO2_pipeline records year measure).Pairwise
        (fun p q => p.2.1 ≤ q.2.1) := by
  have hfil : ∀ c y, y ≤ year → c ∈ continents →
      (records.filter (fun r => decide (r.year ≤ year ∧ r.country ∈ continents))).filter
        (fun r => decide (r.country = c ∧ r.year = y)) =
      records.filter (fun r => decide (r.country = c ∧ r.year = y)) := by
    intro c y hy hc
    rw [List.filter_filter]
    apply List.filter_congr
    intro x _
    rw [← Bool.decide_and, decide_eq_decide]
    constructor
    · rintro ⟨h1, _⟩
      exact h1
    · rintro ⟨h1, h2⟩
      refine ⟨⟨h1, h2⟩, ?_, ?_⟩
      · rw [h2]
        exact hy
      · rw [h1]
        exact hc
  constructor
  · intro c y v
    simp only [CO2_pipeline]
    rw [mem_sortS, List.mem_map]
    constructor
    · rintro ⟨⟨k1, k2⟩, hk, heq⟩
      rw [Prod.mk.injEq, Prod.mk.injEq] at heq
      obtain ⟨rfl, rfl, rfl⟩ := heq
      rw [mem_sortS, List.mem_dedup, List.mem_map] at hk
      obtain ⟨r, hrf, hkey⟩ := hk
      rw [Prod.mk.injEq] at hkey
      obtain ⟨rfl, rfl⟩ := hkey
      rw [List.mem_filter] at hrf
      obtain ⟨hr, hpred⟩ := hrf
      rw [decide_eq_true_eq] at hpred
      obtain ⟨hyr, hmem⟩ := hpred
      exact ⟨hyr, hmem, ⟨r, hr, rfl, rfl⟩, by rw [hfil r.country r.year hyr hmem]⟩
    · rintro ⟨hy, hc, ⟨r, hr, hrc, hry⟩, rfl⟩
      refine ⟨(c, y), ?_, ?_⟩
      · rw [mem_sortS, List.mem_dedup, List.mem_map]
        refine ⟨r, List.mem_filter.mpr ⟨hr, ?_⟩, ?_⟩
        · rw [decide_eq_true_eq]
          constructor
          · rw [hry]
            exact hy
          · rw [hrc]
            exact hc
        · rw [Prod.mk.injEq]
          exact ⟨hrc, hry⟩
      · rw [Prod.mk.injEq, Prod.mk.injEq]
        exact ⟨rfl, rfl, by rw [hfil c y hy hc]⟩
  · simp only [CO2_pipeline]
    have hnodup : (((records.filter
        (fun r => decide (r.year ≤ year ∧ r.country ∈ continents))).map
          (fun r => (r.country, r.year))).dedup).Pairwise
        (fun a b : String × Int => a ≠ b) :=
      List.nodup_dedup _
    have hkeyslt := (pairwise_sortS lexLEb_trans lexLEb_total hnodup).imp
      (fun h => tieOrd_lex_ne_lt h)
    have hglt := List.Pairwise.map
      (fun k : String × Int => (k.1, k.2, mean (((records.filter
        (fun r => decide (r.year ≤ year ∧ r.country ∈ continents))).filter
          (fun r => decide (r.country = k.1 ∧ r.year = k.2))).map measure)))
      (S := fun p q : String × Int × ℚ =>
        p.1 < q.1 ∨ (p.1 = q.1 ∧ p.2.1 < q.2.1))
      (fun a b h => h) hkeyslt
    exact (pairwise_sortS (keyLE_trans (fun p : String × Int × ℚ => p.2.1))
      (keyLE_total (fun p : String × Int × ℚ => p.2.1)) hglt).imp
      (fun h => of_decide_eq_true h.1)

/-- C4: the scatter pipeline returns exactly one row per
`(country, gdp_per_capita)` group of the records with the selected year and
country not in `continents`, with value the mean of `co2` over the group; no
name from the region set ever appears in its output. -/
theorem scatter_excludes_regions (records : List Record) (year : Int) :
    (∀ c g v, (c, g, v) ∈ CO2_vs_gdp_pipeline records year ↔
      (c ∉ continents ∧
        (∃ r ∈ records, r.year = year ∧ r.country = c ∧ r.gdp_per_capita = g) ∧
        v = mean ((records.filter
          (fun r => decide (r.year = year ∧ r.country = c ∧ r.gdp_per_capita = g))).map
            (fun r => r.co2))))
    ∧ (∀ p ∈ CO2_vs_gdp_pipeline records year, p.1 ∉ continents) := by
  have hfil : ∀ c g, c ∉ continents →
      (records.filter (fun r => decide (r.year = year ∧ r.country ∉ continents))).filter
        (fun r => decide (r.country = c ∧ r.gdp_per_capita = g)) =
      records.filter
        (fun r => decide (r.year = year ∧ r.country = c ∧ r.gdp_per_capita = g)) := by
    intro c g hc
    rw [List.filter_filter]
    apply List.filter_congr
    intro x _
    rw [← Bool.decide_and, decide_eq_decide]
    constructor
    · rintro ⟨⟨h1, h2⟩, h3, _⟩
      exact ⟨h3, h1, h2⟩
    · rintro ⟨h1, h2, h3⟩
      refine ⟨⟨h2, h3⟩, h1, ?_⟩
      rw [h2]
      exact hc
  have hmemiff : ∀ c g v, (c, g, v) ∈ CO2_vs_gdp_pipeline records year ↔
      (c ∉ continents ∧
        (∃ r ∈ records, r.year = year ∧ r.country = c ∧ r.gdp_per_capita = g) ∧
        v = mean ((records.filter
          (fun r => decide (r.year = year ∧ r.country = c ∧ r.gdp_per_capita = g))).map
            (fun r => r.co2))) := by
    intro c g v
    simp only [CO2_vs_gdp_pipeline]
    rw [List.mem_map]
    constructor
    · rintro ⟨⟨k1, k2⟩, hk, heq⟩
      rw [Prod.mk.injEq, Prod.mk.injEq] at heq
      obtain ⟨rfl, rfl, rfl⟩ := heq
      rw [mem_sortS, List.mem_dedup, List.mem_map] at hk
      obtain ⟨r, hrf, hkey⟩ := hk
      rw [Prod.mk.injEq] at hkey
      obtain ⟨rfl, rfl⟩ := hkey
      rw [List.mem_filter] at hrf
      obtain ⟨hr, hpred⟩ := hrf
      rw [decide_eq_true_eq] at hpred
      obtain ⟨hyr, hnmem⟩ := hpred
      exact ⟨hnmem, ⟨r, hr, hyr, rfl, rfl⟩,
        by rw [hfil r.country r.gdp_per_capita hnmem]⟩
    · rintro ⟨hc, ⟨r, hr, hyr, hrc, hrg⟩, rfl⟩
      refine ⟨(c, g), ?_, ?_⟩
      · rw [mem_sortS, List.mem_dedup, List.mem_map]
        refine ⟨r, List.mem_filter.mpr ⟨hr, ?_⟩, ?_⟩
        · rw [decide_eq_true_eq]
          refine ⟨hyr, ?_⟩
          rw [hrc]
          exact hc
        · rw [Prod.mk.injEq]
          exact ⟨hrc, hrg⟩
      · rw [Prod.mk.injEq, Prod.mk.injEq]
        exact ⟨rfl, rfl, by rw [hfil c g hc]⟩
  refine ⟨hmemiff, ?_⟩
  intro p hp
  exact ((hmemiff p.1 p.2.1 p.2.2).mp hp).1

/-- C4 witness: the theorem applied to concrete data: `France` appears in the
scatter output and is not a region name. -/
theorem scatter_excludes_regions_witness :
    ("France", (3 : ℚ), (7 : ℚ)) ∈ CO2_vs_gdp_pipeline exScatter 2010
    ∧ ("France" : String) ∉ continents := by
  have h := scatter_excludes_regions exScatter 2010
  have hmem : ("France", (3 : ℚ), (7 : ℚ)) ∈ CO2_vs_gdp_pipeline exScatter 2010 := by
    refine (h.1 "France" 3 7).mpr
      ⟨by decide,
       ⟨{ baseRec "France" 2010 with gdp_per_capita := 3, co2 := 7 },
         by simp [exScatter], rfl, rfl, rfl⟩, ?_⟩
    have hfilEx : exScatter.filter
        (fun r => decide (r.year = 2010 ∧ r.country = "France" ∧ r.gdp_per_capita = 3)) =
        exScatter := by
      norm_num [exScatter, List.filter, baseRec]
    rw [hfilEx]
    norm_num [exScatter, mean, baseRec]
  exact ⟨hmem, h.2 ("France", 3, 7) hmem⟩

end CO2Dashboard
